import Mathlib

/-!
Formal model of the GDPR RegAssistant answer-grounding pipeline.

Shallow embedding of the Python modules `src/agent_tools.py`,
`src/hallucination.py`, `src/citation_verify.py`, `src/agent_orchestrator.py`
and `src/graph_rag.py`.  Strings are Lean `String`s (Python iterates
codepoints, as does `String.data`), floats are modelled as rationals `ℚ`
(the thresholds 0.3, 0.4 and 0.58 and all the small integer ratios compared
against them give the same verdicts in binary floating point and in `ℚ`),
and calls to external collaborators (the OpenAI chat and embedding services,
the vector store) are modelled as oracle functions supplied in an
environment record, with the presence of the `OPENAI_API_KEY` credential a
boolean of that environment.  Regular-expression matching is implemented by
direct maximal-munch scanners; the concrete patterns used by the code
(`(Article\s+\d+|p\.\d+)`, `Article\s+(\d+)`, `(?i)\bArticle\s+(\d+)\b`,
`[.!?]\s+`, `(?<=[.!?])\s+`) contain no constructs for which maximal munch
and leftmost scanning differ from the Python backtracking engine.
Recursions over text use a fuel argument equal to the text length; every
step consumes at least one character, so the fuel never runs out.
-/

/-- ASCII whitespace: the characters matched by the regex class `\s` and
stripped by Python `str.strip()` (the ASCII fragment; all texts in this
development are ASCII). -/
def pyIsSpace (c : Char) : Bool :=
  c = ' ' || c = '\t' || c = '\n' || c = '\r' || c = '\x0b' || c = '\x0c'

/-- ASCII decimal digit, the regex class `\d` (ASCII fragment). -/
def pyIsDigit (c : Char) : Bool := '0' ≤ c && c ≤ '9'

/-- Word characters of the regex class `\w` (ASCII fragment), used for the
`\b` word-boundary assertion. -/
def isWordChar (c : Char) : Bool := c.isAlpha || pyIsDigit c || c = '_'

/-- Python `str.strip()` on a character list. -/
def pyStripList (cs : List Char) : List Char :=
  ((cs.dropWhile pyIsSpace).reverse.dropWhile pyIsSpace).reverse

/-- Python `str.strip()`. -/
def pyStrip (s : String) : String := (pyStripList s.data).asString

/-- Python slicing `s[:n]` (by codepoint, as in Python). -/
def pyTake (n : Nat) (s : String) : String := (s.data.take n).asString

/-- Match a literal keyword at the head of the input, returning the
remainder; `ci` selects case-insensitive comparison (the regex `(?i)`
flag). -/
def matchKw (ci : Bool) : List Char → List Char → Option (List Char)
  | [], cs => some cs
  | _ :: _, [] => none
  | k :: ks, c :: cs =>
      if (if ci then c.toLower = k.toLower else c = k) then matchKw ci ks cs
      else none

/-- Match one occurrence of the pattern `kw` [`\s+`] `cap+` [`\b`] at the
head of `cs`: the literal keyword, optionally (flag `needWS`) one or more
whitespace characters, a maximal nonempty run of capture-class characters,
and optionally (flag `bdry`) a trailing word boundary.  Returns the
captured run and the remainder.  Greedy maximal munch coincides with the
backtracking semantics here: `\s` and the capture classes are disjoint,
and any shorter capture run is still followed by a word character, so
backtracking can never rescue a failed boundary. -/
def matchRef (ci bdry needWS : Bool) (kw : List Char) (isCap : Char → Bool)
    (cs : List Char) : Option (String × List Char) :=
  match matchKw ci kw cs with
  | none => none
  | some r1 =>
    if needWS && (r1.takeWhile pyIsSpace).isEmpty then none
    else
      let r2 := if needWS then r1.dropWhile pyIsSpace else r1
      let caps := r2.takeWhile isCap
      if caps.isEmpty then none
      else
        let rest := r2.dropWhile isCap
        if bdry && (match rest.head? with
                    | some c => isWordChar c
                    | none => false) then none
        else some (caps.asString, rest)

/-- Model of `re.findall` for one reference pattern: scan left to right, trying the
pattern at each position (`prevW` tracks whether the previous character is
a word character, for the leading `\b` when `bdry` is set) and continuing
after the end of each match (the Python non-overlapping semantics).  `fuel`
starts at the text length; each recursive call strictly shrinks the
text, so the fuel-exhausted branch is never taken. -/
def scanRefsAux (ci bdry needWS : Bool) (kw : List Char) (isCap : Char → Bool) :
    Nat → Bool → List Char → List String
  | 0, _, _ => []
  | _ + 1, _, [] => []
  | fuel + 1, prevW, c :: cs =>
      if bdry && prevW then
        scanRefsAux ci bdry needWS kw isCap fuel (isWordChar c) cs
      else
        match matchRef ci bdry needWS kw isCap (c :: cs) with
        | some (cap, rest) =>
            cap :: scanRefsAux ci bdry needWS kw isCap fuel true rest
        | none => scanRefsAux ci bdry needWS kw isCap fuel (isWordChar c) cs

/-- All captures of one reference pattern in a string, in order. -/
def scanRefs (ci bdry needWS : Bool) (kw : String) (isCap : Char → Bool)
    (s : String) : List String :=
  scanRefsAux ci bdry needWS kw.data isCap s.data.length false s.data

/-- One match of the `agent_tools.CITATION_PATTERN` alternation
`(Article\s+\d+|p\.\d+)` at the head of the input (alternatives tried left
to right, as the regex engine does); returns the remainder. -/
def matchCitationAt (cs : List Char) : Option (List Char) :=
  match matchRef false false true "Article".data pyIsDigit cs with
  | some (_, rest) => some rest
  | none =>
    match matchRef false false false "p.".data pyIsDigit cs with
    | some (_, rest) => some rest
    | none => none

/-- Model of `CITATION_PATTERN.findall`: the full matched substrings, in order. -/
def findCitationsAux : Nat → List Char → List String
  | 0, _ => []
  | _ + 1, [] => []
  | fuel + 1, c :: cs =>
      match matchCitationAt (c :: cs) with
      | some rest =>
          ((c :: cs).take ((c :: cs).length - rest.length)).asString ::
            findCitationsAux fuel rest
      | none => findCitationsAux fuel cs

/-- All matches of `agent_tools.CITATION_PATTERN` in a string. -/
def findCitations (s : String) : List String :=
  findCitationsAux s.data.length s.data

/-- Sentence-terminal punctuation, the regex class `[.!?]`. -/
def isTermPunct (c : Char) : Bool := c = '.' || c = '!' || c = '?'

/-- Model of `re.split(r"[.!?]\s+", text)`: fragments between separator matches,
where a separator is a terminal-punctuation character followed by a
maximal nonempty whitespace run; the separator (punctuation included) is
removed. -/
def splitTermWSAux : Nat → List Char → List Char → List String
  | 0, acc, _ => [acc.reverse.asString]
  | _ + 1, acc, [] => [acc.reverse.asString]
  | fuel + 1, acc, c :: cs =>
      if isTermPunct c && (match cs.head? with
                           | some d => pyIsSpace d
                           | none => false) then
        acc.reverse.asString :: splitTermWSAux fuel [] (cs.dropWhile pyIsSpace)
      else
        splitTermWSAux fuel (c :: acc) cs

/-- Model of `re.split(r"[.!?]\s+", s)`. -/
def splitTermWS (s : String) : List String :=
  splitTermWSAux s.data.length [] s.data

/-- Model of `re.split(r"(?<=[.!?])\s+", text)` (the `hallucination.SENTENCE_SPLIT`
pattern): split at maximal whitespace runs immediately preceded by
terminal punctuation; the punctuation stays with the left fragment. -/
def splitAfterTermAux : Nat → List Char → List Char → List String
  | 0, acc, _ => [acc.reverse.asString]
  | _ + 1, acc, [] => [acc.reverse.asString]
  | fuel + 1, acc, c :: cs =>
      if isTermPunct c && (match cs.head? with
                           | some d => pyIsSpace d
                           | none => false) then
        (c :: acc).reverse.asString ::
          splitAfterTermAux fuel [] (cs.dropWhile pyIsSpace)
      else
        splitAfterTermAux fuel (c :: acc) cs

/-- Model of `re.split` of the `hallucination.SENTENCE_SPLIT` pattern. -/
def splitAfterTerm (s : String) : List String :=
  splitAfterTermAux s.data.length [] s.data

/-- Report of `agent_tools.citation_checker` (the Python dict keys become
fields). -/
structure CitationReport where
  citations : List String
  sentence_count : Nat
  citation_coverage : ℚ
  low : Bool
deriving DecidableEq

/-- Model of `agent_tools.citation_checker(answer)`: find all citation markers,
split the answer into stripped nonempty sentences on terminal punctuation
followed by whitespace, and report the coverage ratio against the fixed
0.3 threshold. -/
def citation_checker (answer : String) : CitationReport :=
  let citations := findCitations answer
  let sentences := ((splitTermWS answer).map pyStrip).filter (fun s => s ≠ "")
  let coverage : ℚ := (citations.length : ℚ) / (max sentences.length 1 : ℚ)
  { citations := citations
    sentence_count := sentences.length
    citation_coverage := coverage
    low := decide (coverage < 3/10) }

/-- Claim C1: for every answer string, `citation_checker` returns a
citation coverage equal to the number of citation markers matched divided
by `max(sentence_count, 1)`, where `sentence_count` counts the nonempty
stripped fragments after splitting on terminal punctuation followed by
whitespace, and reports `low` exactly when the coverage is below 0.3; in
particular when at least one sentence is present the coverage equals the
marker count divided by the sentence count. -/
theorem citation_checker_coverage_spec (answer : String) :
    (citation_checker answer).citation_coverage
        = ((citation_checker answer).citations.length : ℚ)
            / (max (citation_checker answer).sentence_count 1 : ℚ)
      ∧ ((citation_checker answer).low = true ↔
          (citation_checker answer).citation_coverage < 3/10)
      ∧ (1 ≤ (citation_checker answer).sentence_count →
          (citation_checker answer).citation_coverage
            = ((citation_checker answer).citations.length : ℚ)
                / ((citation_checker answer).sentence_count : ℚ)) := by
  refine ⟨rfl, by simp [citation_checker], ?_⟩
  intro h
  show (citation_checker answer).citation_coverage
      = ((citation_checker answer).citations.length : ℚ)
          / (((citation_checker answer).sentence_count : ℚ))
  have hmax : max ((citation_checker answer).sentence_count : ℚ) 1
      = ((citation_checker answer).sentence_count : ℚ) :=
    max_eq_left (by exact_mod_cast h)
  calc (citation_checker answer).citation_coverage
      = ((citation_checker answer).citations.length : ℚ)
          / (max (citation_checker answer).sentence_count 1 : ℚ) := rfl
    _ = ((citation_checker answer).citations.length : ℚ)
          / (((citation_checker answer).sentence_count : ℚ)) := by rw [hmax]

/-- Concrete instantiation of `citation_checker_coverage_spec` on an
answer with one citation marker and two sentences. -/
theorem citation_checker_coverage_spec_witness :
    1 ≤ (citation_checker "Article 6 applies. It binds here.").sentence_count
      ∧ (citation_checker "Article 6 applies. It binds here.").citation_coverage
          = ((citation_checker "Article 6 applies. It binds here.").citations.length : ℚ)
              / ((citation_checker "Article 6 applies. It binds here.").sentence_count : ℚ) :=
  ⟨by decide,
   (citation_checker_coverage_spec "Article 6 applies. It binds here.").2.2 (by decide)⟩

/-- Digit string to integer, Python `int(m)` on a regex `\d+` capture. -/
def digitsToNat (s : String) : Nat :=
  s.data.foldl (fun n c => n * 10 + (c.toNat - '0'.toNat)) 0

/-- Python `dict.fromkeys` deduplication: keep the first occurrence of each
element, preserving order (`seen` accumulates the keys already kept). -/
def dedupAux {α : Type} [DecidableEq α] (seen : List α) : List α → List α
  | [] => []
  | x :: xs => if x ∈ seen then dedupAux seen xs else x :: dedupAux (x :: seen) xs

/-- Model of `list(dict.fromkeys(l))`. -/
def dedupKeepFirst {α : Type} [DecidableEq α] (l : List α) : List α :=
  dedupAux [] l

theorem dedupAux_sublist {α : Type} [DecidableEq α] (seen : List α) :
    ∀ l : List α, List.Sublist (dedupAux seen l) l := by
  intro l
  induction l generalizing seen with
  | nil => simp [dedupAux]
  | cons x xs ih =>
    unfold dedupAux
    by_cases h : x ∈ seen
    · simp only [h, if_true]
      exact (ih seen).cons x
    · simp only [h, if_false]
      exact (ih (x :: seen)).cons₂ x

theorem dedupAux_not_mem_seen {α : Type} [DecidableEq α] :
    ∀ (l seen : List α) (x : α), x ∈ dedupAux seen l → x ∉ seen := by
  intro l
  induction l with
  | nil => intro seen x hx; simp [dedupAux] at hx
  | cons y ys ih =>
    intro seen x hx
    unfold dedupAux at hx
    by_cases h : y ∈ seen
    · simp only [h, if_true] at hx
      exact ih seen x hx
    · simp only [h, if_false] at hx
      rcases List.mem_cons.mp hx with rfl | hx'
      · exact h
      · have := ih (y :: seen) x hx'
        exact fun hs => this (List.mem_cons_of_mem y hs)

theorem dedupAux_nodup {α : Type} [DecidableEq α] :
    ∀ (l seen : List α), (dedupAux seen l).Nodup := by
  intro l
  induction l with
  | nil => intro seen; simp [dedupAux]
  | cons y ys ih =>
    intro seen
    unfold dedupAux
    by_cases h : y ∈ seen
    · simp only [h, if_true]; exact ih seen
    · simp only [h, if_false]
      refine List.nodup_cons.mpr ⟨?_, ih (y :: seen)⟩
      intro hy
      exact dedupAux_not_mem_seen ys (y :: seen) y hy (List.mem_cons_self y seen)

/-- The `citation_verify.ARTICLE_RE` pattern `Article\s+(\d+)`
(case-sensitive, no word boundaries): all captured numbers. -/
def findArticleNums (s : String) : List String :=
  scanRefs false false true "Article" pyIsDigit s

/-- Model of `citation_verify.extract_citations(answer)`: numeric article
identifiers in first-occurrence order, deduplicated. -/
def extract_citations (answer : String) : List Nat :=
  dedupKeepFirst ((findArticleNums answer).map digitsToNat)

/-- Result dict of `citation_verify.verify_answer_citations`. -/
structure VerifyResult where
  cited : List Nat
  missing : List Nat
  all_present : Bool
deriving DecidableEq

/-- Model of `citation_verify.verify_answer_citations(answer, context)`. -/
def verify_answer_citations (answer context : String) : VerifyResult :=
  let cited := extract_citations answer
  let ctx := extract_citations context
  let missing := cited.filter (fun c => decide (c ∉ ctx))
  { cited := cited
    missing := missing
    all_present := decide (missing = []) }

/-- Claim C5: `verify_answer_citations` returns the numeric article
identifiers of the answer deduplicated in first-occurrence order as
`cited`; `missing` is the subsequence of `cited` (same order) whose
identifiers do not occur among the identifiers of the context; `all_present`
holds exactly when `missing` is empty; the documented example returns
`cited=[6,9], missing=[9], all_present=false`; and an empty context makes
every cited identifier missing, without error. -/
theorem verify_answer_citations_spec :
    (∀ answer context : String,
        (verify_answer_citations answer context).cited
            = dedupKeepFirst ((findArticleNums answer).map digitsToNat)
          ∧ (verify_answer_citations answer context).cited.Nodup
          ∧ List.Sublist (verify_answer_citations answer context).cited
              ((findArticleNums answer).map digitsToNat)
          ∧ (verify_answer_citations answer context).missing
              = (verify_answer_citations answer context).cited.filter
                  (fun c => decide (c ∉ extract_citations context))
          ∧ List.Sublist (verify_answer_citations answer context).missing
              (verify_answer_citations answer context).cited
          ∧ ((verify_answer_citations answer context).all_present = true ↔
              (verify_answer_citations answer context).missing = [])
          ∧ (verify_answer_citations answer "").missing
              = (verify_answer_citations answer "").cited)
      ∧ verify_answer_citations "See Article 6 and Article 9." "Article 6 applies."
          = { cited := [6, 9], missing := [9], all_present := false } := by
  constructor
  · intro answer context
    refine ⟨rfl, dedupAux_nodup _ _, dedupAux_sublist _ _, rfl,
            List.filter_sublist _, by simp [verify_answer_citations], ?_⟩
    have hctx : extract_citations "" = [] := rfl
    show (extract_citations answer).filter
        (fun c => decide (c ∉ extract_citations "")) = extract_citations answer
    rw [hctx]
    simp
  · decide

/-- Retrieved document (LangChain `Document`): page text plus the two page
metadata keys read by the code (`metadata["page"]`, `metadata["page_number"]`). -/
structure Doc where
  page_content : String
  pageMeta : Option Nat
  pageNumMeta : Option Nat
deriving DecidableEq

/-- Environment of external collaborators and credentials.  `apiKey` is
the presence of `OPENAI_API_KEY` (the `client.api_key` probes); `embedQ`
is the embedding service (`embed_query`; `embed_documents` embeds each
text of a batch the same way, per its 1:1-alignment contract); `sqrtFn`
is `math.sqrt` on the rational model of floats; `llm` is the chat
completion service collapsed to one prompt string; `ragAnswerFn` is the
baseline generation collaborator `rag.answer`; `retrieveDocs` is the
vector store entry point `similarity_search`. -/
structure Env where
  apiKey : Bool
  embedQ : String → List ℚ
  sqrtFn : ℚ → ℚ
  llm : String → String
  ragAnswerFn : String → String
  retrieveDocs : String → Nat → List Doc

/-- Model of `hallucination._split_sentences(text)`: split on the lookbehind
pattern, strip, drop empties, then drop fragments of length at most 20. -/
def split_sentences (text : String) : List String :=
  let raw := ((splitAfterTerm text).map pyStrip).filter (fun s => s ≠ "")
  raw.filter (fun s => 20 < s.length)

/-- Model of `hallucination._cosine(a, b)` with `math.sqrt` supplied as an oracle:
0 on an empty vector or a zero norm, else the normalized dot product. -/
def cosineSim (sqrtFn : ℚ → ℚ) (a b : List ℚ) : ℚ :=
  if a = [] || b = [] then 0
  else
    let num := ((a.zip b).map (fun p => p.1 * p.2)).sum
    let da := sqrtFn ((a.map (fun x => x * x)).sum)
    let db := sqrtFn ((b.map (fun x => x * x)).sum)
    if da = 0 || db = 0 then 0 else num / (da * db)

/-- Running maximum of the cosine similarities of one sentence vector
against every chunk vector (`best = 0.0` then strict improvement). -/
def bestSim (sqrtFn : ℚ → ℚ) (v : List ℚ) (chunks : List (List ℚ)) : ℚ :=
  chunks.foldl
    (fun best c => let sim := cosineSim sqrtFn v c
                   if best < sim then sim else best) 0

/-- Result dict of `hallucination.analyze_support`. -/
structure SupportAnalysis where
  offline : Bool
  sentences : List String
  scores : List ℚ
  low_support : List String
  threshold : ℚ
deriving DecidableEq

/-- Model of `hallucination.analyze_support(answer, docs, threshold)`: offline (no
credential) returns the fail-safe record — every sentence low-support with
score 0; online scores each sentence by its best similarity against the
800-character chunk prefixes and keeps the sentences scoring below the
threshold. -/
def analyze_support (env : Env) (answer : String) (docs : List Doc)
    (threshold : ℚ) : SupportAnalysis :=
  let sentences := split_sentences answer
  if env.apiKey = false then
    { offline := true
      sentences := sentences
      scores := List.replicate sentences.length 0
      low_support := sentences
      threshold := threshold }
  else
    let chunk_vecs := (docs.map (fun d => pyTake 800 d.page_content)).map env.embedQ
    { offline := false
      sentences := sentences
      scores := sentences.map (fun s => bestSim env.sqrtFn (env.embedQ s) chunk_vecs)
      low_support := sentences.filter
        (fun s => decide (bestSim env.sqrtFn (env.embedQ s) chunk_vecs < threshold))
      threshold := threshold }

/-- Claim C2: with the embedding collaborator unavailable, `analyze_support`
returns `offline = true`, every score 0 (a zero for each sentence), and
`low_support` equal to the full sentence list, so no sentence is treated
as supported; and the result is deterministic — it does not depend on any
of the environment oracles, so repeated calls with identical input
(under any offline environment) return the identical record. -/
theorem analyze_support_offline_spec (env : Env) (answer : String)
    (docs : List Doc) (threshold : ℚ) (hoff : env.apiKey = false) :
    (analyze_support env answer docs threshold).offline = true
      ∧ (analyze_support env answer docs threshold).scores
          = List.replicate (analyze_support env answer docs threshold).sentences.length 0
      ∧ (∀ q ∈ (analyze_support env answer docs threshold).scores, q = 0)
      ∧ (analyze_support env answer docs threshold).low_support
          = (analyze_support env answer docs threshold).sentences
      ∧ (∀ s ∈ (analyze_support env answer docs threshold).sentences,
          s ∈ (analyze_support env answer docs threshold).low_support)
      ∧ (∀ env₂ : Env, env₂.apiKey = false →
          analyze_support env₂ answer docs threshold
            = analyze_support env answer docs threshold) := by
  refine ⟨by simp [analyze_support, hoff], by simp [analyze_support, hoff], ?_, ?_, ?_, ?_⟩
  · intro q hq
    simp only [analyze_support, hoff, if_true, reduceIte] at hq
    exact List.eq_of_mem_replicate hq
  · simp [analyze_support, hoff]
  · intro s hs
    simp only [analyze_support, hoff, reduceIte] at hs ⊢
    exact hs
  · intro env₂ h₂
    simp [analyze_support, hoff, h₂]

/-- Offline environment used by concrete witnesses: no credential, and
trivial oracles (never consulted on the offline paths). -/
def envOff : Env :=
  { apiKey := false
    embedQ := fun _ => []
    sqrtFn := fun _ => 0
    llm := fun _ => ""
    ragAnswerFn := fun _ => "No citations here at all."
    retrieveDocs := fun _ _ => [] }

/-- Concrete instantiation of `analyze_support_offline_spec`. -/
theorem analyze_support_offline_spec_witness :
    envOff.apiKey = false
      ∧ ((analyze_support envOff "Article 1 sets out fundamental principles. It requires fairness and transparency." [] (58/100)).offline = true
          ∧ (analyze_support envOff "Article 1 sets out fundamental principles. It requires fairness and transparency." [] (58/100)).scores
              = List.replicate (analyze_support envOff "Article 1 sets out fundamental principles. It requires fairness and transparency." [] (58/100)).sentences.length 0
          ∧ (∀ q ∈ (analyze_support envOff "Article 1 sets out fundamental principles. It requires fairness and transparency." [] (58/100)).scores, q = 0)
          ∧ (analyze_support envOff "Article 1 sets out fundamental principles. It requires fairness and transparency." [] (58/100)).low_support
              = (analyze_support envOff "Article 1 sets out fundamental principles. It requires fairness and transparency." [] (58/100)).sentences
          ∧ (∀ s ∈ (analyze_support envOff "Article 1 sets out fundamental principles. It requires fairness and transparency." [] (58/100)).sentences,
              s ∈ (analyze_support envOff "Article 1 sets out fundamental principles. It requires fairness and transparency." [] (58/100)).low_support)
          ∧ (∀ env₂ : Env, env₂.apiKey = false →
              analyze_support env₂ "Article 1 sets out fundamental principles. It requires fairness and transparency." [] (58/100)
                = analyze_support envOff "Article 1 sets out fundamental principles. It requires fairness and transparency." [] (58/100))) :=
  ⟨rfl, analyze_support_offline_spec envOff _ [] (58/100) rfl⟩

/-- Result dict of `hallucination.regenerate_if_needed`
(`low_support_before` is absent — `none` — on the no-regeneration paths). -/
structure RegenResult where
  regenerated : Bool
  answer : String
  reason : String
  low_support_before : Option (List String)
deriving DecidableEq

/-- Regeneration prompt assembled by `regenerate_if_needed`. -/
def regenPrompt (question : String) (low : List String) (joined : String) : String :=
  "You are a GDPR assistant. Regenerate a grounded answer to the user's question. "
    ++ "Focus on correcting the following low-support sentences (they lacked source similarity):\n"
    ++ String.intercalate "\n" (low.map (fun s => "- " ++ s))
    ++ "\nUse ONLY the provided source excerpts and cite Articles/Recitals/pages. If unsure, say so.\n"
    ++ "Question: " ++ question ++ "\nSources:\n" ++ joined ++ "\nGrounded Answer:"

/-- Model of `hallucination.regenerate_if_needed(question, answer, docs, analysis,
regen_ratio)` (the ratio parameter is named `regen_limit` here).  Four
no-regeneration paths: offline analysis, no scored sentences, a
low-support ratio within the limit, and a missing credential at
regeneration time (the code builds a fresh client from `OPENAI_API_KEY`
and bails out with reason "offline" when it has no key). -/
def regenerate_if_needed (apiKey : Bool) (llm : String → String)
    (question answer : String) (docs : List Doc) (analysis : SupportAnalysis)
    (regen_limit : ℚ) : RegenResult :=
  if analysis.offline then
    { regenerated := false, answer := answer, reason := "offline", low_support_before := none }
  else if analysis.sentences = [] then
    { regenerated := false, answer := answer, reason := "no_sentences", low_support_before := none }
  else if (analysis.low_support.length : ℚ) / (max analysis.sentences.length 1 : ℚ) ≤ regen_limit then
    { regenerated := false, answer := answer, reason := "ratio_ok", low_support_before := none }
  else if apiKey = false then
    { regenerated := false, answer := answer, reason := "offline", low_support_before := none }
  else
    { regenerated := true
      answer := llm (regenPrompt question analysis.low_support
        (String.intercalate "\n\n" (docs.map (fun d => pyTake 1000 d.page_content))))
      reason := "regen_trigger"
      low_support_before := some analysis.low_support }

/-- Stub chat completion used in closed statements. -/
def llmStub : String → String := fun _ => "regenerated text"

/-- Online support analysis with every sentence low-support, used to
exhibit the missing-credential regeneration path. -/
def analysisCE : SupportAnalysis :=
  { offline := false
    sentences := ["first low-support sentence", "second low-support sentence", "third low-support sentence"]
    scores := [0, 0, 0]
    low_support := ["first low-support sentence", "second low-support sentence", "third low-support sentence"]
    threshold := 58/100 }

/-- Claim C3 fails as stated: an analysis that is online, has sentences,
and exceeds the regeneration ratio -- so the claim demands
`regenerated = true` -- still yields `regenerated = false` when the
`OPENAI_API_KEY` credential is absent at regeneration time. -/
theorem regenerate_missing_key_cex :
    (regenerate_if_needed false llmStub "q" "ans" [] analysisCE (2/5)).regenerated = false
      ∧ analysisCE.offline = false
      ∧ analysisCE.sentences ≠ []
      ∧ ¬((analysisCE.low_support.length : ℚ)
            / (max analysisCE.sentences.length 1 : ℚ) ≤ 2/5) := by
  have h3 : ¬((analysisCE.low_support.length : ℚ)
      / (max analysisCE.sentences.length 1 : ℚ) ≤ 2/5) := by
    norm_num [analysisCE]
  refine ⟨?_, rfl, by simp [analysisCE], h3⟩
  simp only [regenerate_if_needed, analysisCE]
  norm_num
  decide

theorem regen_regenerated_iff (apiKey : Bool) (llm : String → String)
    (question answer : String) (docs : List Doc) (analysis : SupportAnalysis)
    (lim : ℚ) :
    (regenerate_if_needed apiKey llm question answer docs analysis lim).regenerated = true ↔
      (analysis.offline = false ∧ analysis.sentences ≠ []
        ∧ ¬((analysis.low_support.length : ℚ)
              / (max analysis.sentences.length 1 : ℚ) ≤ lim)
        ∧ apiKey = true) := by
  unfold regenerate_if_needed
  split_ifs with h1 h2 h3 h4 <;> simp_all

theorem regen_fired_fields (apiKey : Bool) (llm : String → String)
    (question answer : String) (docs : List Doc) (analysis : SupportAnalysis)
    (lim : ℚ)
    (h : (regenerate_if_needed apiKey llm question answer docs analysis lim).regenerated = true) :
    (regenerate_if_needed apiKey llm question answer docs analysis lim).reason = "regen_trigger"
      ∧ (regenerate_if_needed apiKey llm question answer docs analysis lim).low_support_before
          = some analysis.low_support := by
  revert h
  unfold regenerate_if_needed
  split_ifs <;> simp

theorem regen_not_fired_answer (apiKey : Bool) (llm : String → String)
    (question answer : String) (docs : List Doc) (analysis : SupportAnalysis)
    (lim : ℚ)
    (h : (regenerate_if_needed apiKey llm question answer docs analysis lim).regenerated = false) :
    (regenerate_if_needed apiKey llm question answer docs analysis lim).answer = answer := by
  revert h
  unfold regenerate_if_needed
  split_ifs <;> simp

/-- Claim C3 (amended): `regenerate_if_needed` regenerates exactly when
the analysis is online, has at least one sentence, its low-support ratio
strictly exceeds the limit, and the API credential is available at
regeneration time (otherwise it returns `regenerated = false`, with
reason "offline" in the missing-credential case); when it regenerates it
reports reason "regen_trigger" and the prior low-support sentences, and
when it does not the answer is returned unchanged; with limit 0.4, five
sentences and two low-support ones never trigger, while five sentences
and three low-support ones trigger whenever the credential is present. -/
theorem regenerate_policy_amended :
    (∀ (apiKey : Bool) (llm : String → String) (question answer : String)
        (docs : List Doc) (analysis : SupportAnalysis) (lim : ℚ),
        ((regenerate_if_needed apiKey llm question answer docs analysis lim).regenerated = true ↔
            (analysis.offline = false ∧ analysis.sentences ≠ []
              ∧ ¬((analysis.low_support.length : ℚ)
                    / (max analysis.sentences.length 1 : ℚ) ≤ lim)
              ∧ apiKey = true))
          ∧ ((regenerate_if_needed apiKey llm question answer docs analysis lim).regenerated = true →
              (regenerate_if_needed apiKey llm question answer docs analysis lim).reason = "regen_trigger"
                ∧ (regenerate_if_needed apiKey llm question answer docs analysis lim).low_support_before
                    = some analysis.low_support)
          ∧ ((regenerate_if_needed apiKey llm question answer docs analysis lim).regenerated = false →
              (regenerate_if_needed apiKey llm question answer docs analysis lim).answer = answer))
      ∧ (∀ (llm : String → String) (question answer : String) (docs : List Doc)
          (analysis : SupportAnalysis),
          analysis.offline = false → analysis.sentences.length = 5 →
          analysis.low_support.length = 2 →
          (regenerate_if_needed true llm question answer docs analysis (2/5)).regenerated = false)
      ∧ (∀ (llm : String → String) (question answer : String) (docs : List Doc)
          (analysis : SupportAnalysis),
          analysis.offline = false → analysis.sentences.length = 5 →
          analysis.low_support.length = 3 →
          (regenerate_if_needed true llm question answer docs analysis (2/5)).regenerated = true) := by
  refine ⟨fun apiKey llm question answer docs analysis lim =>
      ⟨regen_regenerated_iff apiKey llm question answer docs analysis lim,
       regen_fired_fields apiKey llm question answer docs analysis lim,
       regen_not_fired_answer apiKey llm question answer docs analysis lim⟩, ?_, ?_⟩
  · intro llm question answer docs analysis h1 h2 h3
    rcases h : (regenerate_if_needed true llm question answer docs analysis (2/5)).regenerated with _ | _
    · rfl
    · exfalso
      have hc := (regen_regenerated_iff true llm question answer docs analysis (2/5)).mp h
      refine hc.2.2.1 ?_
      rw [h2, h3]
      norm_num
  · intro llm question answer docs analysis h1 h2 h3
    refine (regen_regenerated_iff true llm question answer docs analysis (2/5)).mpr
      ⟨h1, ?_, ?_, rfl⟩
    · intro hnil; rw [hnil] at h2; simp at h2
    · rw [h2, h3]; norm_num

/-- Online analysis with five sentences, three of them low-support. -/
def analysisB : SupportAnalysis :=
  { offline := false
    sentences := ["s one", "s two", "s three", "s four", "s five"]
    scores := [0, 0, 0, 1, 1]
    low_support := ["s one", "s two", "s three"]
    threshold := 58/100 }

/-- Concrete instantiation of `regenerate_policy_amended`: with the
credential present, five sentences and three low-support ones trigger
regeneration. -/
theorem regenerate_policy_amended_witness :
    (regenerate_if_needed true llmStub "q" "a" [] analysisB (2/5)).regenerated = true :=
  regenerate_policy_amended.2.2 llmStub "q" "a" [] analysisB rfl rfl rfl

theorem split_sentences_eq (t : String) :
    split_sentences t
      = ((splitAfterTerm t).map pyStrip).filter (fun s => decide (20 < s.length)) := by
  unfold split_sentences
  rw [List.filter_filter]
  apply List.filter_congr
  intro s _
  by_cases h : 20 < s.length
  · have hne : s ≠ "" := by
      intro heq
      rw [heq] at h
      simp at h
    simp [h, hne]
  · simp [h]

theorem analyze_support_sentences (env : Env) (answer : String)
    (docs : List Doc) (thr : ℚ) :
    (analyze_support env answer docs thr).sentences = split_sentences answer := by
  unfold analyze_support
  by_cases h : env.apiKey = false <;> simp [h]

/-- Claim C7: the sentence list used by `analyze_support` is exactly, in
order, the stripped fragments of the lookbehind sentence split whose
length exceeds 20 characters (shorter fragments, the empty ones included,
are dropped); on the scenario-A answer this keeps both fragments, so the
returned sentence count equals the count of qualifying fragments. -/
theorem split_sentences_filter_spec :
    (∀ (env : Env) (answer : String) (docs : List Doc) (thr : ℚ),
        (analyze_support env answer docs thr).sentences
          = ((splitAfterTerm answer).map pyStrip).filter (fun s => decide (20 < s.length)))
      ∧ (analyze_support envOff "Article 1 sets out fundamental principles. It requires fairness and transparency." [] (58/100)).sentences.length
          = (((splitAfterTerm "Article 1 sets out fundamental principles. It requires fairness and transparency.").map pyStrip).filter (fun s => decide (20 < s.length))).length
      ∧ (analyze_support envOff "Article 1 sets out fundamental principles. It requires fairness and transparency." [] (58/100)).sentences.length = 2 := by
  refine ⟨?_, ?_, ?_⟩
  · intro env answer docs thr
    rw [analyze_support_sentences, split_sentences_eq]
  · rw [analyze_support_sentences, split_sentences_eq]
  · rw [analyze_support_sentences]
    decide

/-- Model of `agent_tools.summarizer(question, docs)`: deterministic offline text
when the credential is missing, else the chat completion (the system and
user messages are collapsed into one prompt string for the oracle). -/
def summarizer (env : Env) (question : String) (docs : List Doc) : String :=
  let joined := String.intercalate "\n\n" (docs.map (fun d => pyTake 800 d.page_content))
  if env.apiKey = false then
    "[Offline summarizer] API key missing; using truncated context.\n" ++ pyTake 500 joined
  else
    env.llm ("You are a GDPR assistant. Use ONLY provided text, cite Articles or pages."
      ++ "\nQuestion: " ++ question ++ "\n\nText:\n" ++ joined ++ "\n\nAnswer with citations:")

/-- One step record of the orchestrator `steps` list: the `name` value
plus the state-specific metric fields of the Python dict. -/
inductive StepInfo
  | retrievalStep (k retrieved : Nat)
  | baselineStep (chars : Nat)
  | citationStep (citations sentence_count : Nat) (coverage : ℚ) (low : Bool)
      (missing_citations : List Nat)
  | supportStep (sentences low_support_count : Nat) (threshold : ℚ) (offline : Bool)
  | regenStep (regenerated : Bool) (reason : String)
  | fallbackStep (chars : Nat)
deriving DecidableEq

/-- The `name` field of a step record. -/
def StepInfo.name : StepInfo → String
  | .retrievalStep _ _ => "retrieval"
  | .baselineStep _ => "baseline_answer"
  | .citationStep _ _ _ _ _ => "citation_check"
  | .supportStep _ _ _ _ => "support_analysis"
  | .regenStep _ _ => "regeneration"
  | .fallbackStep _ => "summarizer_fallback"

/-- The orchestrator diagnostics record (fixed field set). -/
structure Diagnostics where
  citation_coverage : ℚ
  citations : Nat
  citation_list : List String
  missing_citations : List Nat
  low_support_count : Nat
  fallback_used : Bool
  regenerated : Bool
deriving DecidableEq

/-- Return value of `AgentOrchestrator.run`, with the audit sink event
names collected as a list (payloads elided; the sink is append-only). -/
structure RunResult where
  answer : String
  steps : List StepInfo
  diagnostics : Diagnostics
  events : List String
deriving DecidableEq

/-- Model of `agent_orchestrator.OrchestratorConfig` (the source field
`regen_ratio` is named `regen_limit` here; `citation_min_coverage` is
declared by the source but never read by `run`, which relies on the
0.3 constant inside `citation_checker`). -/
structure OrchestratorConfig where
  k_retrieval : Nat
  citation_min_coverage : ℚ
  hallucination_threshold : ℚ
  regen_limit : ℚ
  enable_fallback : Bool
  enable_regeneration : Bool
  append_diagnostics_footer : Bool
deriving DecidableEq

/-- The source defaults: k=5, 0.3, 0.58, 0.4, all features on. -/
def defaultConfig : OrchestratorConfig :=
  { k_retrieval := 5
    citation_min_coverage := 3/10
    hallucination_threshold := 58/100
    regen_limit := 2/5
    enable_fallback := true
    enable_regeneration := true
    append_diagnostics_footer := true }

/-- Step 1 of `run`: retrieved documents. -/
def orch_docs (env : Env) (cfg : OrchestratorConfig) (q : String) : List Doc :=
  env.retrieveDocs q cfg.k_retrieval

/-- Step 2 of `run`: the baseline answer from the generation collaborator. -/
def orch_base (env : Env) (q : String) : String := env.ragAnswerFn q

/-- Step 3a of `run`: citation density over the baseline answer. -/
def orch_ccheck (env : Env) (q : String) : CitationReport :=
  citation_checker (orch_base env q)

/-- Step 3b of `run`: the context block of 400-character chunk prefixes. -/
def orch_context (env : Env) (cfg : OrchestratorConfig) (q : String) : String :=
  if (orch_docs env cfg q).isEmpty then ""
  else String.intercalate "\n" ((orch_docs env cfg q).map (fun d => pyTake 400 d.page_content))

/-- Step 3c of `run`: cross-verification of cited identifiers. -/
def orch_citver (env : Env) (cfg : OrchestratorConfig) (q : String) : VerifyResult :=
  verify_answer_citations (orch_base env q) (orch_context env cfg q)

/-- Step 4 of `run`: support analysis of the baseline answer. -/
def orch_support (env : Env) (cfg : OrchestratorConfig) (q : String) : SupportAnalysis :=
  analyze_support env (orch_base env q) (orch_docs env cfg q) cfg.hallucination_threshold

/-- Step 5 of `run`: the regeneration attempt, made only when enabled and
the analysis is online (`none` when the state is skipped entirely). -/
def orch_regen (env : Env) (cfg : OrchestratorConfig) (q : String) : Option RegenResult :=
  if cfg.enable_regeneration && !(orch_support env cfg q).offline then
    some (regenerate_if_needed env.apiKey env.llm q (orch_base env q)
      (orch_docs env cfg q) (orch_support env cfg q) cfg.regen_limit)
  else none

/-- The working answer after the regeneration state (replaced only when
regeneration fired). -/
def orch_working (env : Env) (cfg : OrchestratorConfig) (q : String) : String :=
  match orch_regen env cfg q with
  | some r => if r.regenerated then r.answer else orch_base env q
  | none => orch_base env q

/-- Whether regeneration fired (`bool(regenerated_answer)`). -/
def orch_regenerated (env : Env) (cfg : OrchestratorConfig) (q : String) : Bool :=
  match orch_regen env cfg q with
  | some r => r.regenerated
  | none => false

/-- Model of `low_support_count` over the (pre-regeneration) support analysis. -/
def orch_low_count (env : Env) (cfg : OrchestratorConfig) (q : String) : Nat :=
  (orch_support env cfg q).low_support.length

/-- Model of `sentence_total = len(support["sentences"]) or 1`. -/
def orch_sentence_total (env : Env) (cfg : OrchestratorConfig) (q : String) : Nat :=
  if (orch_support env cfg q).sentences.length = 0 then 1
  else (orch_support env cfg q).sentences.length

/-- Model of `low_ratio = low_support_count / sentence_total`. -/
def orch_low_frac (env : Env) (cfg : OrchestratorConfig) (q : String) : ℚ :=
  (orch_low_count env cfg q : ℚ) / (orch_sentence_total env cfg q : ℚ)

/-- Step 6 trigger: `enable_fallback and (ccheck["low"] or low_ratio > regen_ratio)`. -/
def orch_fired (env : Env) (cfg : OrchestratorConfig) (q : String) : Bool :=
  cfg.enable_fallback
    && ((orch_ccheck env q).low || decide (orch_low_frac env cfg q > cfg.regen_limit))

/-- The fallback summary text. -/
def orch_improved (env : Env) (cfg : OrchestratorConfig) (q : String) : String :=
  summarizer env q (orch_docs env cfg q)

/-- The final answer before the diagnostics footer: the working answer,
with the fallback output appended under its marker when the fallback
fired. -/
def orch_preFooter (env : Env) (cfg : OrchestratorConfig) (q : String) : String :=
  orch_working env cfg q
    ++ (if orch_fired env cfg q then
          "\n[orchestrator summarizer fallback]\n" ++ orch_improved env cfg q
        else "")

/-- Two-decimal rendering of a nonnegative rational for the footer,
modelling the Python format `f"{x:.2f}"` (which rounds the underlying double
half-even; truncation is used here — the footer text is decorative and no
claim inspects its digits). -/
def fmt2 (x : ℚ) : String :=
  let n : Int := (x * 100).floor
  toString (n / 100) ++ "." ++ (if n % 100 < 10 then "0" else "") ++ toString (n % 100)

/-- The diagnostics footer appended to the answer when enabled. -/
def orch_footer (env : Env) (cfg : OrchestratorConfig) (q : String) : String :=
  if cfg.append_diagnostics_footer then
    "\n" ++ String.intercalate " "
      (["[agent-orchestrator]",
        "citations=" ++ toString (orch_ccheck env q).citations.length,
        "coverage=" ++ fmt2 (orch_ccheck env q).citation_coverage,
        "low_support=" ++ toString (orch_low_count env cfg q),
        "regen=" ++ (if orch_regenerated env cfg q then "1" else "0"),
        "fallback=" ++ (if orch_fired env cfg q then "1" else "0")]
        ++ (if orch_fired env cfg q then
              ["support_threshold=" ++ fmt2 (orch_support env cfg q).threshold]
            else []))
  else ""

/-- The diagnostics record assembled by the terminal state. -/
def orch_diag (env : Env) (cfg : OrchestratorConfig) (q : String) : Diagnostics :=
  { citation_coverage := (orch_ccheck env q).citation_coverage
    citations := (orch_ccheck env q).citations.length
    citation_list := (orch_ccheck env q).citations
    missing_citations := (orch_citver env cfg q).missing
    low_support_count := orch_low_count env cfg q
    fallback_used := orch_fired env cfg q
    regenerated := orch_regenerated env cfg q }

/-- The step records appended over the run, in append order: one each for
retrieval, baseline answer, citation check and support analysis; a
regeneration record only when that state ran (fired or not); a fallback
record only when the fallback fired. -/
def orch_steps (env : Env) (cfg : OrchestratorConfig) (q : String) : List StepInfo :=
  [ .retrievalStep cfg.k_retrieval (orch_docs env cfg q).length,
    .baselineStep (orch_base env q).length,
    .citationStep (orch_ccheck env q).citations.length (orch_ccheck env q).sentence_count
      (orch_ccheck env q).citation_coverage (orch_ccheck env q).low
      (orch_citver env cfg q).missing,
    .supportStep (orch_support env cfg q).sentences.length (orch_low_count env cfg q)
      (orch_support env cfg q).threshold (orch_support env cfg q).offline ]
  ++ (match orch_regen env cfg q with
      | some r => [.regenStep r.regenerated r.reason]
      | none => [])
  ++ (if orch_fired env cfg q then [.fallbackStep (orch_improved env cfg q).length] else [])

/-- The audit events emitted over the run, in emission order
(`log_retrieval`, the `citation_check` and `support_analysis` events, a
`regeneration` event only when regeneration fired, a
`summarizer_fallback` event only when the fallback fired, and the
terminal completion event; the baseline-answer state logs nothing). -/
def orch_events (env : Env) (cfg : OrchestratorConfig) (q : String) : List String :=
  ["retrieval", "citation_check", "support_analysis"]
  ++ (match orch_regen env cfg q with
      | some r => if r.regenerated then ["regeneration"] else []
      | none => [])
  ++ (if orch_fired env cfg q then ["summarizer_fallback"] else [])
  ++ ["agent_orchestrator_complete"]

/-- Model of `AgentOrchestrator.run(question)`. -/
def AgentOrchestrator_run (env : Env) (cfg : OrchestratorConfig) (q : String) : RunResult :=
  { answer := orch_preFooter env cfg q ++ orch_footer env cfg q
    steps := orch_steps env cfg q
    diagnostics := orch_diag env cfg q
    events := orch_events env cfg q }

theorem orch_sentence_total_cast (env : Env) (cfg : OrchestratorConfig) (q : String) :
    (orch_sentence_total env cfg q : ℚ)
      = (max (orch_support env cfg q).sentences.length 1 : ℚ) := by
  unfold orch_sentence_total
  rcases h : (orch_support env cfg q).sentences.length with _ | n
  · simp [h]
  · simp only [h, Nat.succ_ne_zero, if_false]
    have : max (n + 1) 1 = n + 1 := Nat.max_eq_left (Nat.succ_le_succ (Nat.zero_le n))
    rw [show (max ((n + 1 : ℕ) : ℚ) 1) = ((n + 1 : ℕ) : ℚ) from
      max_eq_left (by exact_mod_cast Nat.succ_le_succ (Nat.zero_le n))]

/-- Claim C4: with the fallback enabled, the summarizer fallback fires
exactly when the citation report is `low` or the low-support count over
`max(sentence_count, 1)` strictly exceeds the regeneration ratio; when it
fires its output is appended (under the marker section, before the
footer) to the working answer, never replacing it, and the diagnostics
record `fallback_used` is true; when it does not fire, `fallback_used` is
false and the answer is the working answer plus footer with nothing
appended. -/
theorem orchestrator_fallback_spec (env : Env) (cfg : OrchestratorConfig) (q : String)
    (hfb : cfg.enable_fallback = true) :
    ((AgentOrchestrator_run env cfg q).diagnostics.fallback_used = true ↔
        ((orch_ccheck env q).low = true
          ∨ ((orch_support env cfg q).low_support.length : ℚ)
              / (max (orch_support env cfg q).sentences.length 1 : ℚ) > cfg.regen_limit))
      ∧ ((AgentOrchestrator_run env cfg q).diagnostics.fallback_used = true →
          (AgentOrchestrator_run env cfg q).answer
            = orch_working env cfg q ++ "\n[orchestrator summarizer fallback]\n"
                ++ orch_improved env cfg q ++ orch_footer env cfg q)
      ∧ ((AgentOrchestrator_run env cfg q).diagnostics.fallback_used = false →
          (AgentOrchestrator_run env cfg q).answer
            = orch_working env cfg q ++ orch_footer env cfg q) := by
  have hdiag : (AgentOrchestrator_run env cfg q).diagnostics.fallback_used
      = orch_fired env cfg q := rfl
  refine ⟨?_, ?_, ?_⟩
  · rw [hdiag]
    unfold orch_fired orch_low_frac orch_low_count
    rw [hfb, orch_sentence_total_cast]
    simp [Bool.or_eq_true, decide_eq_true_iff]
  · intro h
    rw [hdiag] at h
    show orch_preFooter env cfg q ++ orch_footer env cfg q = _
    unfold orch_preFooter
    rw [h]
    simp [String.append_assoc]
  · intro h
    rw [hdiag] at h
    show orch_preFooter env cfg q ++ orch_footer env cfg q = _
    unfold orch_preFooter
    rw [h]
    simp

/-- Concrete instantiation of `orchestrator_fallback_spec` at the default
configuration (fallback enabled) in the offline environment. -/
theorem orchestrator_fallback_spec_witness :
    defaultConfig.enable_fallback = true
      ∧ (((AgentOrchestrator_run envOff defaultConfig "q").diagnostics.fallback_used = true ↔
            ((orch_ccheck envOff "q").low = true
              ∨ ((orch_support envOff defaultConfig "q").low_support.length : ℚ)
                  / (max (orch_support envOff defaultConfig "q").sentences.length 1 : ℚ)
                    > defaultConfig.regen_limit))
          ∧ ((AgentOrchestrator_run envOff defaultConfig "q").diagnostics.fallback_used = true →
              (AgentOrchestrator_run envOff defaultConfig "q").answer
                = orch_working envOff defaultConfig "q" ++ "\n[orchestrator summarizer fallback]\n"
                    ++ orch_improved envOff defaultConfig "q" ++ orch_footer envOff defaultConfig "q")
          ∧ ((AgentOrchestrator_run envOff defaultConfig "q").diagnostics.fallback_used = false →
              (AgentOrchestrator_run envOff defaultConfig "q").answer
                = orch_working envOff defaultConfig "q" ++ orch_footer envOff defaultConfig "q")) :=
  ⟨rfl, orchestrator_fallback_spec envOff defaultConfig "q" rfl⟩

/-- Configuration with regeneration and fallback both disabled (steps
four states only). -/
def cfgQuiet : OrchestratorConfig :=
  { k_retrieval := 5
    citation_min_coverage := 3/10
    hallucination_threshold := 58/100
    regen_limit := 2/5
    enable_fallback := false
    enable_regeneration := false
    append_diagnostics_footer := true }

/-- Claim C6 fails as stated: a concrete run produces only four step
records — the Regeneration and Fallback states append none here and no
`finalize` step record exists at all — and the baseline-answer state
emits no audit event, so it is not the case that each of the seven
pipeline states appends exactly one step record and emits one audit
event. -/
theorem orchestrator_missing_steps_cex :
    (AgentOrchestrator_run envOff cfgQuiet "q").steps.map StepInfo.name
        = ["retrieval", "baseline_answer", "citation_check", "support_analysis"]
      ∧ (AgentOrchestrator_run envOff cfgQuiet "q").steps.length = 4
      ∧ "finalize" ∉ (AgentOrchestrator_run envOff cfgQuiet "q").steps.map StepInfo.name
      ∧ "regeneration" ∉ (AgentOrchestrator_run envOff cfgQuiet "q").steps.map StepInfo.name
      ∧ "baseline_answer" ∉ (AgentOrchestrator_run envOff cfgQuiet "q").events
      ∧ (AgentOrchestrator_run envOff cfgQuiet "q").events
          = ["retrieval", "citation_check", "support_analysis", "agent_orchestrator_complete"] := by
  refine ⟨?_, ?_, ?_, ?_, ?_, ?_⟩ <;> decide

/-- Claim C6 (amended): the Retrieval, BaselineAnswer, CitationCheck and
SupportAnalysis states each append exactly one step record, in state
order; a regeneration record follows exactly when the Regeneration state
runs (regeneration enabled and analysis online), a `summarizer_fallback`
record exactly when the fallback fires, and no `finalize` step record is
appended (Finalize returns the diagnostics record instead).  Audit events
are emitted in order for retrieval, citation check and support analysis,
then for regeneration only when it fired, for the fallback only when it
fired, and a single terminal completion event; the baseline-answer state
emits no audit event. -/
theorem orchestrator_steps_amended (env : Env) (cfg : OrchestratorConfig) (q : String) :
    (AgentOrchestrator_run env cfg q).steps.map StepInfo.name
        = ["retrieval", "baseline_answer", "citation_check", "support_analysis"]
          ++ (match orch_regen env cfg q with
              | some _ => ["regeneration"]
              | none => [])
          ++ (if orch_fired env cfg q then ["summarizer_fallback"] else [])
      ∧ (orch_regen env cfg q).isSome
          = (cfg.enable_regeneration && !(orch_support env cfg q).offline)
      ∧ (AgentOrchestrator_run env cfg q).events
          = ["retrieval", "citation_check", "support_analysis"]
            ++ (match orch_regen env cfg q with
                | some r => if r.regenerated then ["regeneration"] else []
                | none => [])
            ++ (if orch_fired env cfg q then ["summarizer_fallback"] else [])
            ++ ["agent_orchestrator_complete"] := by
  refine ⟨?_, ?_, rfl⟩
  · show (orch_steps env cfg q).map StepInfo.name = _
    cases h : orch_regen env cfg q <;>
      by_cases hf : orch_fired env cfg q <;>
        simp [orch_steps, h, hf, StepInfo.name]
  · unfold orch_regen
    by_cases h : cfg.enable_regeneration && !(orch_support env cfg q).offline <;> simp [h]

/-- Roman-numeral characters of the class `[IVXLC]` under `(?i)`. -/
def isRomanChar (c : Char) : Bool :=
  (['I', 'V', 'X', 'L', 'C', 'i', 'v', 'x', 'l', 'c'] : List Char).contains c

/-- Model of `graph_rag.ARTICLE_RE` = `(?i)\bArticle\s+(\d+)\b`: captured numbers. -/
def findArticleRefsCI (s : String) : List String :=
  scanRefs true true true "Article" pyIsDigit s

/-- Model of `graph_rag.RECITAL_RE` = `(?i)\bRecital\s+(\d+)\b`: captured numbers. -/
def findRecitalRefsCI (s : String) : List String :=
  scanRefs true true true "Recital" pyIsDigit s

/-- Model of `graph_rag.CHAPTER_RE` = `(?i)\bChapter\s+([IVXLC]+)\b`: captured numerals. -/
def findChapterRefsCI (s : String) : List String :=
  scanRefs true true true "Chapter" isRomanChar s

/-- A parsed structural node (the Python dict; the dict key `type` is the
field `ntype`). -/
structure NodeData where
  ntype : String
  id : String
  number : String
  page : Nat
  text : String
deriving DecidableEq

/-- Model of `graph_rag.extract_structured_nodes(raw_docs)`: one node per regex
match on each page, articles then recitals then chapters, with
`page = metadata.get("page", metadata.get("page_number", doc_id))`. -/
def extract_structured_nodes (raw_docs : List Doc) : List NodeData :=
  (raw_docs.enum.map (fun p =>
    let text := p.2.page_content
    let page := p.2.pageMeta.getD (p.2.pageNumMeta.getD p.1)
    ((findArticleRefsCI text).map (fun a =>
        { ntype := "article", id := "article_" ++ a, number := a, page := page, text := text }))
      ++ ((findRecitalRefsCI text).map (fun r =>
        { ntype := "recital", id := "recital_" ++ r, number := r, page := page, text := text }))
      ++ ((findChapterRefsCI text).map (fun c =>
        { ntype := "chapter", id := "chapter_" ++ c, number := c, page := page, text := text })))).flatten

/-- First-match association lookup (a Python dict access). -/
def lookupStr {α : Type} : List (String × α) → String → Option α
  | [], _ => none
  | (k, v) :: rest, key => if k = key then some v else lookupStr rest key

/-- A `networkx.Graph`: insertion-ordered node attributes, insertion-
ordered adjacency, and the typed edge list with its `relation`
attribute.  The networkx representation invariant — every adjacency key
is a node and every listed neighbour is an adjacency key — is `wfB`
below. -/
structure PyGraph where
  nodeList : List (String × NodeData)
  adj : List (String × List String)
  edges : List (String × String × String)
deriving DecidableEq

/-- Model of `graph.has_node(id)`. -/
def PyGraph.hasNode (g : PyGraph) (id : String) : Bool :=
  (lookupStr g.nodeList id).isSome

/-- Model of `graph.neighbors(id)` (`none` models the NetworkXError on a missing
node). -/
def PyGraph.neighborsOf (g : PyGraph) (id : String) : Option (List String) :=
  lookupStr g.adj id

/-- Replace the first binding of `k` (used only when `k` is present). -/
def updateAssoc {α : Type} (k : String) (v : α) : List (String × α) → List (String × α)
  | [] => [(k, v)]
  | (k', v') :: rest => if k' = k then (k, v) :: rest else (k', v') :: updateAssoc k v rest

/-- Insert a fresh node entry (id, attributes, empty adjacency) when the
id is absent; leave the graph unchanged when it is present. -/
def PyGraph.ensureNode (g : PyGraph) (id : String) (data : NodeData) : PyGraph :=
  if g.hasNode id then g
  else { g with nodeList := g.nodeList ++ [(id, data)], adj := g.adj ++ [(id, [])] }

/-- Model of `graph.add_node(id, **attrs)`: re-adding an existing id overwrites its
attributes in place; a new id is appended together with an empty
adjacency entry. -/
def PyGraph.addNode (g : PyGraph) (id : String) (data : NodeData) : PyGraph :=
  if g.hasNode id then { g with nodeList := updateAssoc id data g.nodeList }
  else g.ensureNode id data

/-- Attribute record for a node auto-added by `add_edge` (networkx stores
an empty attribute dict there; `build_graph` never reaches this case
because both endpoints are always already present). -/
def placeholderData (id : String) : NodeData :=
  { ntype := "", id := id, number := "", page := 0, text := "" }

/-- Append `v` to the adjacency list of `u` unless already present. -/
def appendNbr (adj : List (String × List String)) (u v : String) :
    List (String × List String) :=
  adj.map (fun p => if p.1 = u then (p.1, if v ∈ p.2 then p.2 else p.2 ++ [v]) else p)

/-- Update or append the `relation` attribute of the undirected edge
`{u, v}`. -/
def updateEdgeRel : List (String × String × String) → String → String → String →
    List (String × String × String)
  | [], u, v, rel => [(u, v, rel)]
  | (a, b, r) :: rest, u, v, rel =>
      if (a = u ∧ b = v) ∨ (a = v ∧ b = u) then (a, b, rel) :: rest
      else (a, b, r) :: updateEdgeRel rest u v rel

/-- Model of `graph.add_edge(u, v, relation=rel)`: auto-add missing endpoints,
record both adjacency directions, and set the edge relation. -/
def PyGraph.addEdge (g : PyGraph) (u v rel : String) : PyGraph :=
  let g2 := (g.ensureNode u (placeholderData u)).ensureNode v (placeholderData v)
  { g2 with adj := appendNbr (appendNbr g2.adj u v) v u
            edges := updateEdgeRel g2.edges u v rel }

/-- Membership of the undirected edge `{u, v}` with relation `rel`. -/
def PyGraph.hasEdgeRel (g : PyGraph) (u v rel : String) : Bool :=
  g.edges.contains (u, v, rel) || g.edges.contains (v, u, rel)

/-- Model of `graph_rag.build_graph(nodes)`: add every parsed node (idempotent by
id), link each chapter to each article sharing its page, and link each
recital to every article its text mentions (when that article node
exists). -/
def build_graph (nodes : List NodeData) : PyGraph :=
  let g0 := nodes.foldl (fun g n => g.addNode n.id n) ⟨[], [], []⟩
  let articles := nodes.filter (fun n => n.ntype == "article")
  let chapters := nodes.filter (fun n => n.ntype == "chapter")
  let recitals := nodes.filter (fun n => n.ntype == "recital")
  let g1 := chapters.foldl (fun g ch =>
    articles.foldl (fun g art =>
      if art.page = ch.page then g.addEdge ch.id art.id "chapter_contains" else g) g) g0
  recitals.foldl (fun g rc =>
    (findArticleRefsCI rc.text).foldl (fun g a =>
      if g.hasNode ("article_" ++ a) then g.addEdge rc.id ("article_" ++ a) "recital_references"
      else g) g) g1

theorem lookupStr_isSome_iff {α : Type} :
    ∀ (l : List (String × α)) (k : String),
      (lookupStr l k).isSome = true ↔ k ∈ l.map Prod.fst := by
  intro l k
  induction l with
  | nil => simp [lookupStr]
  | cons p rest ih =>
    rcases p with ⟨k', v'⟩
    by_cases h : k' = k
    · subst h
      simp [lookupStr]
    · simp only [lookupStr, h, if_false, List.map_cons, List.mem_cons]
      rw [ih]
      constructor
      · exact Or.inr
      · rintro (rfl | hm)
        · exact absurd rfl h
        · exact hm

theorem updateAssoc_keys {α : Type} (k : String) (v : α) :
    ∀ l : List (String × α), k ∈ l.map Prod.fst →
      (updateAssoc k v l).map Prod.fst = l.map Prod.fst := by
  intro l
  induction l with
  | nil => simp
  | cons p rest ih =>
    rcases p with ⟨k', v'⟩
    intro hmem
    by_cases h : k' = k
    · subst h
      simp [updateAssoc]
    · have : k ∈ rest.map Prod.fst := by
        rcases List.mem_cons.mp hmem with h' | h'
        · exact absurd h'.symm h
        · exact h'
      simp [updateAssoc, h, ih this]

theorem ensureNode_keys (g : PyGraph) (id : String) (d : NodeData) :
    (g.ensureNode id d).nodeList.map Prod.fst
      = if g.hasNode id then g.nodeList.map Prod.fst
        else g.nodeList.map Prod.fst ++ [id] := by
  unfold PyGraph.ensureNode
  by_cases h : g.hasNode id <;> simp [h]

theorem nodup_keys_snoc {α : Type} (l : List (String × α)) (k : String)
    (h : (l.map Prod.fst).Nodup) (hk : k ∉ l.map Prod.fst) :
    ((l.map Prod.fst) ++ [k]).Nodup := by
  rw [List.nodup_append]
  exact ⟨h, List.nodup_singleton k, by simpa [List.disjoint_singleton] using hk⟩

theorem ensureNode_nodup (g : PyGraph) (id : String) (d : NodeData)
    (h : (g.nodeList.map Prod.fst).Nodup) :
    ((g.ensureNode id d).nodeList.map Prod.fst).Nodup := by
  rw [ensureNode_keys]
  by_cases hc : g.hasNode id
  · simpa [hc] using h
  · have hk : id ∉ g.nodeList.map Prod.fst := by
      intro hm
      exact hc ((lookupStr_isSome_iff g.nodeList id).mpr hm)
    simpa [hc] using nodup_keys_snoc g.nodeList id h hk

theorem addNode_nodup (g : PyGraph) (id : String) (d : NodeData)
    (h : (g.nodeList.map Prod.fst).Nodup) :
    ((g.addNode id d).nodeList.map Prod.fst).Nodup := by
  unfold PyGraph.addNode
  by_cases hc : g.hasNode id
  · have hm : id ∈ g.nodeList.map Prod.fst := (lookupStr_isSome_iff g.nodeList id).mp hc
    simpa [hc, updateAssoc_keys id d g.nodeList hm] using h
  · simpa [hc] using ensureNode_nodup g id d h

theorem addEdge_nodup (g : PyGraph) (u v rel : String)
    (h : (g.nodeList.map Prod.fst).Nodup) :
    ((g.addEdge u v rel).nodeList.map Prod.fst).Nodup := by
  unfold PyGraph.addEdge
  exact ensureNode_nodup _ v _ (ensureNode_nodup g u _ h)

theorem foldl_preserve {β : Type} (P : PyGraph → Prop) (step : PyGraph → β → PyGraph)
    (hstep : ∀ g b, P g → P (step g b)) :
    ∀ (l : List β) (g : PyGraph), P g → P (l.foldl step g) := by
  intro l
  induction l with
  | nil => intro g hg; simpa using hg
  | cons b bs ih =>
    intro g hg
    simpa using ih (step g b) (hstep g b hg)

theorem build_graph_nodup (nodes : List NodeData) :
    ((build_graph nodes).nodeList.map Prod.fst).Nodup := by
  unfold build_graph
  apply foldl_preserve (fun g => (g.nodeList.map Prod.fst).Nodup)
  · intro g rc hg
    apply foldl_preserve (fun g => (g.nodeList.map Prod.fst).Nodup)
    · intro g a hg'
      by_cases hc : g.hasNode ("article_" ++ a) <;> simp [hc]
      · exact addEdge_nodup _ _ _ _ hg'
      · exact hg'
    · exact hg
  · apply foldl_preserve (fun g => (g.nodeList.map Prod.fst).Nodup)
    · intro g ch hg
      apply foldl_preserve (fun g => (g.nodeList.map Prod.fst).Nodup)
      · intro g art hg'
        by_cases hc : art.page = ch.page <;> simp [hc]
        · exact addEdge_nodup _ _ _ _ hg'
        · exact hg'
      · exact hg
    · apply foldl_preserve (fun g => (g.nodeList.map Prod.fst).Nodup)
      · intro g n hg
        exact addNode_nodup g n.id n hg
      · simp

/-- Two pages, each mentioning Article 5, each with its own chapter. -/
def gdprTwoPageDocs : List Doc :=
  [ { page_content := "Chapter II Article 5 lawfulness of processing"
      pageMeta := some 1
      pageNumMeta := none },
    { page_content := "Chapter III Article 5 further provisions text"
      pageMeta := some 2
      pageNumMeta := none } ]

/-- Claim C8: node insertion is idempotent by id — the node-id list of any
built graph has no duplicates — and on the two-page scenario the two
mentions of Article 5 collapse into the single node `article_5`, whose
`page` attribute is that of one of the processed mentions (the later one,
page 2), while the `chapter_contains` edges from the chapters co-located
with either mention both attach to that single node. -/
theorem graph_node_idempotence_spec :
    (∀ nodes : List NodeData, ((build_graph nodes).nodeList.map Prod.fst).Nodup)
      ∧ (build_graph (extract_structured_nodes gdprTwoPageDocs)).nodeList.map Prod.fst
          = ["article_5", "chapter_II", "chapter_III"]
      ∧ (lookupStr (build_graph (extract_structured_nodes gdprTwoPageDocs)).nodeList
            "article_5").map NodeData.page = some 2
      ∧ (build_graph (extract_structured_nodes gdprTwoPageDocs)).hasEdgeRel
          "chapter_II" "article_5" "chapter_contains" = true
      ∧ (build_graph (extract_structured_nodes gdprTwoPageDocs)).hasEdgeRel
          "chapter_III" "article_5" "chapter_contains" = true := by
  exact ⟨build_graph_nodup, by decide, by decide, by decide, by decide⟩

/-- Inner loop of one expansion round: visit the neighbours of one
frontier node, appending each unseen one to the visited set (held as its
insertion-ordered key list) and to the next frontier. -/
def visitNbrs : List String → List String → List String → List String × List String
  | visited, nf, [] => (visited, nf)
  | visited, nf, nbr :: rest =>
      if nbr ∈ visited then visitNbrs visited nf rest
      else visitNbrs (visited ++ [nbr]) (nf ++ [nbr]) rest

/-- One expansion round over the frontier; a frontier node absent from
the graph raises (`graph.neighbors` raises NetworkXError), modelled as
`.error` carrying the offending id. -/
def expandFrontier (g : PyGraph) :
    List String → List String → List String → Except String (List String × List String)
  | visited, nf, [] => .ok (visited, nf)
  | visited, nf, node :: rest =>
      match g.neighborsOf node with
      | none => .error node
      | some nbrs =>
          let p := visitNbrs visited nf nbrs
          expandFrontier g p.1 p.2 rest

/-- The `for _ in range(depth)` loop of `expand_with_neighbors`. -/
def expandLoop (g : PyGraph) : Nat → List String → List String → Except String (List String)
  | 0, visited, _ => .ok visited
  | d + 1, visited, frontier =>
      match expandFrontier g visited [] frontier with
      | .error e => .error e
      | .ok (v', nf) => expandLoop g d v' nf

/-- The visited ids in the order expansion produced them: the anchors
(first occurrences) followed by the newly discovered neighbours in
discovery order. -/
def expansionProducedOrder (anchor_ids : List String) (g : PyGraph) (depth : Nat) :
    Except String (List String) :=
  expandLoop g depth (dedupKeepFirst anchor_ids) anchor_ids

/-- Model of `graph_rag.expand_with_neighbors(anchor_ids, graph, depth)`.  The
Python `visited` is a `set`; `list(visited)` enumerates it in an order
the implementation does not specify (string hashing is randomized per
process), modelled by the `setOrder` parameter — a permutation chosen by
the runtime — applied to the insertion-ordered key list. -/
def expand_with_neighbors (setOrder : List String → List String)
    (anchor_ids : List String) (g : PyGraph) (depth : Nat) : Except String (List String) :=
  match expansionProducedOrder anchor_ids g depth with
  | .error e => .error e
  | .ok visited => .ok (setOrder visited)

/-- Model of `sorted(l, key=key, reverse=True)`: the Python sort is stable, and a
stable descending sort over a total preorder is unique, so insertion
sort with the reversed key comparison computes it. -/
def pySortedDesc (key : String → ℚ) (l : List String) : List String :=
  l.insertionSort (fun a b => key b ≤ key a)

/-- Model of `graph_rag._doc_snippet(graph, node_id, full=...)` (looking up a
missing id raises KeyError in Python; the total model substitutes empty
attributes — unreachable from `retrieve_with_graph`, see the safety
claim). -/
def docSnippet (g : PyGraph) (node_id : String) (full : Bool) : String :=
  let data := (lookupStr g.nodeList node_id).getD (placeholderData node_id)
  let content :=
    ((if full then data.text else pyTake 400 data.text).data.map
      (fun c => if c = '\n' then ' ' else c)).asString
  let tag := if full then "full" else "snippet"
  "[" ++ data.ntype ++ ":" ++ data.number ++ "] p." ++ toString data.page
    ++ " (" ++ tag ++ ") " ++ content

/-- Anchor mapping of `retrieve_with_graph`: re-scan each retrieved
chunk for article then recital markers, keep the ids present in the
graph, and deduplicate preserving first-seen order. -/
def anchorIdsOf (g : PyGraph) (retrieved : List Doc) : List String :=
  dedupKeepFirst ((retrieved.map (fun doc =>
    ((findArticleRefsCI doc.page_content).map (fun a => "article_" ++ a)).filter
        (fun id => g.hasNode id)
      ++ ((findRecitalRefsCI doc.page_content).map (fun r => "recital_" ++ r)).filter
        (fun id => g.hasNode id))).flatten)

/-- Model of `graph_rag.retrieve_with_graph(store, query, graph, page_rank, k,
neighbor_depth, full_pages)`.  The centrality map is the total function
`pr` (`page_rank.get(nid, 0.0)`); the vector store is the oracle
`store`.  Returns the context block and the reranked expanded ids, or
the sentinel result when no anchors map. -/
def retrieve_with_graph (setOrder : List String → List String)
    (store : String → Nat → List Doc) (query : String) (g : PyGraph)
    (pr : String → ℚ) (k neighbor_depth : Nat) (full_pages : Bool) :
    Except String (String × List String) :=
  let anchor_ids := anchorIdsOf g (store query k)
  if anchor_ids.isEmpty then .ok ("No structural nodes matched anchor retrieval.", [])
  else
    (expand_with_neighbors setOrder anchor_ids g neighbor_depth).map
      (fun expanded_ids =>
        let scored := pySortedDesc pr expanded_ids
        (String.intercalate "\n\n"
            ((scored.take (k * 2)).map (fun nid => docSnippet g nid full_pages)),
          scored))

theorem lookupStr_mem {α : Type} :
    ∀ (l : List (String × α)) (key : String) (v : α),
      lookupStr l key = some v → (key, v) ∈ l := by
  intro l
  induction l with
  | nil => intro key v h; simp [lookupStr] at h
  | cons p rest ih =>
    intro key v h
    rcases p with ⟨k', v'⟩
    by_cases hk : k' = key
    · subst hk
      simp [lookupStr] at h
      subst h
      exact List.mem_cons_self _ _
    · simp only [lookupStr, hk, if_false] at h
      exact List.mem_cons_of_mem _ (ih key v h)

/-- The networkx representation invariant: every adjacency key and every
listed neighbour is a node of the graph, and every node has an adjacency
entry. -/
def PyGraph.wfB (g : PyGraph) : Bool :=
  g.adj.all (fun p => g.hasNode p.1 && p.2.all (fun x => g.hasNode x))
    && g.nodeList.all (fun p => (lookupStr g.adj p.1).isSome)

theorem neighbors_of_wf (g : PyGraph) (hwf : g.wfB = true) (n : String)
    (hn : g.hasNode n = true) :
    ∃ nbrs, g.neighborsOf n = some nbrs ∧ ∀ x ∈ nbrs, g.hasNode x = true := by
  have hwf' := hwf
  unfold PyGraph.wfB at hwf'
  rw [Bool.and_eq_true, List.all_eq_true, List.all_eq_true] at hwf'
  obtain ⟨hadj, hnodes⟩ := hwf'
  unfold PyGraph.hasNode at hn
  obtain ⟨d, hd⟩ := Option.isSome_iff_exists.mp hn
  have hmem : (n, d) ∈ g.nodeList := lookupStr_mem g.nodeList n d hd
  have hsome := hnodes (n, d) hmem
  obtain ⟨nbrs, hnbrs⟩ := Option.isSome_iff_exists.mp hsome
  refine ⟨nbrs, hnbrs, ?_⟩
  have hpair : (n, nbrs) ∈ g.adj := lookupStr_mem g.adj n nbrs hnbrs
  have := hadj (n, nbrs) hpair
  rw [Bool.and_eq_true, List.all_eq_true] at this
  exact fun x hx => this.2 x hx

theorem visitNbrs_prop (P : String → Prop) :
    ∀ (ns visited nf : List String),
      (∀ x ∈ visited, P x) → (∀ x ∈ nf, P x) → (∀ x ∈ ns, P x) →
      (∀ x ∈ (visitNbrs visited nf ns).1, P x)
        ∧ (∀ x ∈ (visitNbrs visited nf ns).2, P x) := by
  intro ns
  induction ns with
  | nil =>
    intro visited nf hv hn _
    exact ⟨hv, hn⟩
  | cons b bs ih =>
    intro visited nf hv hn hb
    have hbP : P b := hb b (List.mem_cons_self _ _)
    have hbs : ∀ x ∈ bs, P x := fun x hx => hb x (List.mem_cons_of_mem _ hx)
    have hstep : visitNbrs visited nf (b :: bs)
        = if b ∈ visited then visitNbrs visited nf bs
          else visitNbrs (visited ++ [b]) (nf ++ [b]) bs := rfl
    by_cases hmem : b ∈ visited
    · rw [hstep, if_pos hmem]
      exact ih visited nf hv hn hbs
    · rw [hstep, if_neg hmem]
      refine ih (visited ++ [b]) (nf ++ [b]) ?_ ?_ hbs
      · intro x hx
        rcases List.mem_append.mp hx with h | h
        · exact hv x h
        · rw [List.mem_singleton] at h; exact h ▸ hbP
      · intro x hx
        rcases List.mem_append.mp hx with h | h
        · exact hn x h
        · rw [List.mem_singleton] at h; exact h ▸ hbP

theorem expandFrontier_safe (g : PyGraph) (hwf : g.wfB = true) :
    ∀ (frontier visited nf : List String),
      (∀ x ∈ visited, g.hasNode x = true) → (∀ x ∈ nf, g.hasNode x = true) →
      (∀ x ∈ frontier, g.hasNode x = true) →
      ∃ v' nf', expandFrontier g visited nf frontier = .ok (v', nf')
        ∧ (∀ x ∈ v', g.hasNode x = true) ∧ (∀ x ∈ nf', g.hasNode x = true) := by
  intro frontier
  induction frontier with
  | nil =>
    intro visited nf hv hn _
    exact ⟨visited, nf, rfl, hv, hn⟩
  | cons node rest ih =>
    intro visited nf hv hn hf
    have hnode : g.hasNode node = true := hf node (List.mem_cons_self _ _)
    obtain ⟨nbrs, hnbrs, hnbrsmem⟩ := neighbors_of_wf g hwf node hnode
    have hvp := visitNbrs_prop (fun x => g.hasNode x = true) nbrs visited nf hv hn hnbrsmem
    obtain ⟨v', nf', heq, h1, h2⟩ :=
      ih (visitNbrs visited nf nbrs).1 (visitNbrs visited nf nbrs).2 hvp.1 hvp.2
        (fun x hx => hf x (List.mem_cons_of_mem _ hx))
    refine ⟨v', nf', ?_, h1, h2⟩
    show expandFrontier g visited nf (node :: rest) = Except.ok (v', nf')
    unfold expandFrontier
    rw [hnbrs]
    exact heq

theorem expandLoop_safe (g : PyGraph) (hwf : g.wfB = true) :
    ∀ (depth : Nat) (visited frontier : List String),
      (∀ x ∈ visited, g.hasNode x = true) → (∀ x ∈ frontier, g.hasNode x = true) →
      ∃ v, expandLoop g depth visited frontier = .ok v
        ∧ ∀ x ∈ v, g.hasNode x = true := by
  intro depth
  induction depth with
  | zero =>
    intro visited frontier hv _
    exact ⟨visited, rfl, hv⟩
  | succ d ih =>
    intro visited frontier hv hf
    obtain ⟨v', nf', heq, h1, h2⟩ :=
      expandFrontier_safe g hwf frontier visited [] hv (by simp) hf
    obtain ⟨v, hv', hmem⟩ := ih v' nf' h1 h2
    refine ⟨v, ?_, hmem⟩
    show expandLoop g (d + 1) visited frontier = Except.ok v
    unfold expandLoop
    rw [heq]
    exact hv'

theorem anchorIdsOf_hasNode (g : PyGraph) (retrieved : List Doc) :
    ∀ id ∈ anchorIdsOf g retrieved, g.hasNode id = true := by
  intro id hid
  unfold anchorIdsOf dedupKeepFirst at hid
  have hsub := (dedupAux_sublist ([] : List String) _).subset hid
  rw [List.mem_flatten] at hsub
  obtain ⟨seg, hseg, hidseg⟩ := hsub
  rw [List.mem_map] at hseg
  obtain ⟨doc, _, rfl⟩ := hseg
  rcases List.mem_append.mp hidseg with h | h
  · exact (List.mem_filter.mp h).2
  · exact (List.mem_filter.mp h).2

/-- Claim C10: under the networkx representation invariant, and for any
iteration order of the visited set, `retrieve_with_graph` never raises —
it returns a result whose every ranked node id is present in the supplied
graph (anchors are has-node-checked and expansion only adds neighbours of
present nodes, so snippet rendering never looks up a missing id) — while
calling `expand_with_neighbors` directly with an id absent from the graph
is not protected and raises (models the NetworkXError). -/
theorem retrieve_node_safety_spec (setOrder : List String → List String)
    (store : String → Nat → List Doc) (query : String) (g : PyGraph)
    (pr : String → ℚ) (k depth : Nat) (fp : Bool)
    (hwf : g.wfB = true) (hperm : ∀ l, (setOrder l).Perm l) :
    (∃ ctx scored,
        retrieve_with_graph setOrder store query g pr k depth fp = .ok (ctx, scored)
          ∧ ∀ nid ∈ scored, g.hasNode nid = true)
      ∧ (∀ id ∈ anchorIdsOf g (store query k), g.hasNode id = true)
      ∧ expand_with_neighbors (fun l => l) ["ghost"] (build_graph []) 1
          = .error "ghost" := by
  refine ⟨?_, anchorIdsOf_hasNode g _, rfl⟩
  by_cases hA : (anchorIdsOf g (store query k)).isEmpty = true
  · refine ⟨"No structural nodes matched anchor retrieval.", [], ?_, by simp⟩
    unfold retrieve_with_graph
    rw [if_pos hA]
  · have hanchors : ∀ x ∈ anchorIdsOf g (store query k), g.hasNode x = true :=
      anchorIdsOf_hasNode g _
    have hdedup : ∀ x ∈ dedupKeepFirst (anchorIdsOf g (store query k)),
        g.hasNode x = true := by
      intro x hx
      exact hanchors x ((dedupAux_sublist [] _).subset hx)
    obtain ⟨v, hv, hvmem⟩ := expandLoop_safe g hwf depth
      (dedupKeepFirst (anchorIdsOf g (store query k)))
      (anchorIdsOf g (store query k)) hdedup hanchors
    have hexp : expand_with_neighbors setOrder (anchorIdsOf g (store query k)) g depth
        = .ok (setOrder v) := by
      unfold expand_with_neighbors expansionProducedOrder
      rw [hv]
    refine ⟨String.intercalate "\n\n"
        (((pySortedDesc pr (setOrder v)).take (k * 2)).map
          (fun nid => docSnippet g nid fp)),
      pySortedDesc pr (setOrder v), ?_, ?_⟩
    · unfold retrieve_with_graph
      rw [if_neg hA, hexp]
      rfl
    · intro nid hnid
      have h1 : nid ∈ setOrder v := by
        have hps := List.perm_insertionSort (fun a b => pr b ≤ pr a) (setOrder v)
        have : nid ∈ (setOrder v).insertionSort (fun a b => pr b ≤ pr a) := hnid
        exact hps.subset this
      exact hvmem nid ((hperm v).subset h1)

/-- Two one-article pages used to build a concrete graph. -/
def gDocs : List Doc :=
  [ { page_content := "Article 1.", pageMeta := some 1, pageNumMeta := none },
    { page_content := "Article 2.", pageMeta := some 2, pageNumMeta := none } ]

/-- Concrete two-node graph (no edges). -/
def gTwo : PyGraph := build_graph (extract_structured_nodes gDocs)

/-- Vector store returning one chunk that mentions both articles. -/
def storeTwo : String → Nat → List Doc :=
  fun _ _ => [{ page_content := "Article 1 and Article 2", pageMeta := none, pageNumMeta := none }]

/-- Centrality map assigning every node the same score (all ties). -/
def prZero : String → ℚ := fun _ => 0

/-- Concrete instantiation of `retrieve_node_safety_spec` on the
two-node graph with the identity set order. -/
theorem retrieve_node_safety_spec_witness :
    gTwo.wfB = true
      ∧ ((∃ ctx scored,
            retrieve_with_graph (fun l => l) storeTwo "q" gTwo prZero 5 1 false
                = .ok (ctx, scored)
              ∧ ∀ nid ∈ scored, gTwo.hasNode nid = true)
          ∧ (∀ id ∈ anchorIdsOf gTwo (storeTwo "q" 5), gTwo.hasNode id = true)
          ∧ expand_with_neighbors (fun l => l) ["ghost"] (build_graph []) 1
              = .error "ghost") :=
  ⟨by decide,
   retrieve_node_safety_spec (fun l => l) storeTwo "q" gTwo prZero 5 1 false
     (by decide) (fun l => List.Perm.refl l)⟩

/-- Modelled from the spec, for comparison with the code (the tie-breaking
clause of claim C9): the ranked list the spec describes is the
expanded node-id set sorted by descending centrality score with ties
broken by the original expansion order — a stable sort over the order in
which expansion produced the ids. -/
def specStableRanked (pr : String → ℚ) (producedOrder : List String) : List String :=
  pySortedDesc pr producedOrder

/-- Claim C9 fails as stated: on a two-anchor graph with equal centrality
scores, expansion produces the ids in order `[article_1, article_2]`, so
the ranked list of the spec keeps that order; but the code sorts the iteration
order of the Python set `visited` — unspecified, here instantiated to the
reversed order — and the stable sort preserves that order on ties,
returning `[article_2, article_1]`. -/
theorem retrieve_tie_order_cex :
    prZero "article_1" = prZero "article_2"
      ∧ (retrieve_with_graph List.reverse storeTwo "q" gTwo prZero 5 1 false).toOption.map
            Prod.snd = some ["article_2", "article_1"]
      ∧ (expansionProducedOrder ["article_1", "article_2"] gTwo 1).toOption
          = some ["article_1", "article_2"]
      ∧ specStableRanked prZero ["article_1", "article_2"] = ["article_1", "article_2"]
      ∧ (["article_2", "article_1"] : List String) ≠ ["article_1", "article_2"] :=
  ⟨rfl, rfl, rfl, rfl, by decide⟩

/-- Claim C9 (amended): whenever the anchor set is nonempty and
`retrieve_with_graph` returns, its ranked list is sorted by descending
centrality score — the relative order of equal-score ids follows the
iteration order of the visited set, which the implementation leaves
unspecified (the sort is stable over that order, not over the expansion
order) — and the context renders the snippets of at most `2*k` ids taken
from the top of that ranking. -/
theorem retrieve_rank_amended (setOrder : List String → List String)
    (store : String → Nat → List Doc) (query : String) (g : PyGraph)
    (pr : String → ℚ) (k depth : Nat) (fp : Bool) (ctx : String) (scored : List String)
    (hok : retrieve_with_graph setOrder store query g pr k depth fp = .ok (ctx, scored))
    (hne : anchorIdsOf g (store query k) ≠ []) :
    List.Pairwise (fun a b => pr b ≤ pr a) scored
      ∧ ctx = String.intercalate "\n\n"
          ((scored.take (k * 2)).map (fun nid => docSnippet g nid fp))
      ∧ (scored.take (k * 2)).length ≤ 2 * k := by
  have hA : ¬((anchorIdsOf g (store query k)).isEmpty = true) := by
    simp only [List.isEmpty_iff]
    exact hne
  unfold retrieve_with_graph at hok
  rw [if_neg hA] at hok
  cases hE : expand_with_neighbors setOrder (anchorIdsOf g (store query k)) g depth with
  | error e =>
    rw [hE] at hok
    simp [Except.map] at hok
  | ok expanded =>
    rw [hE] at hok
    simp only [Except.map, Except.ok.injEq, Prod.mk.injEq] at hok
    obtain ⟨hctx, hscored⟩ := hok
    subst hscored
    subst hctx
    haveI instTot : IsTotal String (fun a b => pr b ≤ pr a) :=
      ⟨fun a b => le_total (pr b) (pr a)⟩
    haveI instTr : IsTrans String (fun a b => pr b ≤ pr a) :=
      ⟨fun _ _ _ hab hbc => le_trans hbc hab⟩
    refine ⟨?_, rfl, ?_⟩
    · exact List.sorted_insertionSort _ _
    · exact le_of_le_of_eq (List.length_take_le _ _) (Nat.mul_comm k 2)

/-- Concrete instantiation of `retrieve_rank_amended` with the identity
set order on the two-node graph. -/
theorem retrieve_rank_amended_witness :
    List.Pairwise (fun a b => prZero b ≤ prZero a) ["article_1", "article_2"]
      ∧ "[article:1] p.1 (snippet) Article 1.\n\n[article:2] p.2 (snippet) Article 2."
          = String.intercalate "\n\n"
              (((["article_1", "article_2"] : List String).take (5 * 2)).map
                (fun nid => docSnippet gTwo nid false))
      ∧ ((["article_1", "article_2"] : List String).take (5 * 2)).length ≤ 2 * 5 :=
  retrieve_rank_amended (fun l => l) storeTwo "q" gTwo prZero 5 1 false
    "[article:1] p.1 (snippet) Article 1.\n\n[article:2] p.2 (snippet) Article 2."
    ["article_1", "article_2"] rfl (by decide)
